import Mathlib

/-!
Shallow embedding of the H3-cell zonal raster summarization engine of the
`geospatial-librarian` repository (recipe scripts under
`src/datasets/recipes/`), covering:

* `nasadem.py`     — `h3_cells_to_polygon`, `compute_elevation_stats`,
                     `summarize_elevation` (nodata −999, via `data.rio.nodata`);
* `cop-dem.py`     — the same pipeline with nodata 0, where
                     `load_copdem_raster` additionally replaces value-0 pixels
                     by NaN (`data.where(data != 0, np.nan)`);
* `esa-worldcover.py` — `compute_class_fractions` over the WorldCover
                     class table.

Modelling conventions:

* Raster pixel values are rationals (`ℚ`); NumPy NaN is modelled as `none`
  in `Option ℚ`, so a clipped subset is a list of `Option ℚ` pixels.
* The external collaborators `rio.clip` (which raises when the polygon does
  not intersect the raster — caught by `except Exception: continue`) and the
  pixel selection of `rasterstats.zonal_stats` (`all_touched=True/False`)
  are modelled abstractly: a raster is a function from a polygon to an
  optional clipped subset, and the subset carries the pixel list under each
  of the two rasterization modes.
* `rasterstats.zonal_stats` masks pixels equal to the nodata value as well
  as NaN pixels, computes `median` (NumPy median: middle element, or mean of
  the two middle elements, of the sorted valid values) and
  `range = max − min`, and yields `None` for both when no valid pixel
  remains; this is embedded in `zonal_stats_summary`.
* Python exceptions are modelled with `Except`: `h3_cells[0]` on an empty
  list becomes `Except.error "IndexError: list index out of range"`.
* A `pandas.DataFrame` built with explicit `columns=` is a record of the
  column-name list and the row list.
-/

/-- An H3 cell identifier together with what the external `h3` library
resolves it to: `h3.get_resolution` gives `res`, `h3.cell_to_boundary`
gives the boundary as (lat, lng) pairs. -/
structure H3Cell where
  id : String
  res : ℕ
  boundary : List (ℚ × ℚ)
deriving DecidableEq

/-- A polygon ring of (lng, lat) vertices, as Shapely sees it. -/
def GeoPolygon : Type := List (ℚ × ℚ)

/-- `Polygon([(lng, lat) for lat, lng in h3.cell_to_boundary(cell)])`:
the boundary with each (lat, lng) pair swapped to (lng, lat). -/
def cellPolygon (c : H3Cell) : GeoPolygon :=
  c.boundary.map (fun p => (p.2, p.1))

/-- The clipped raster subset a successful `data.rio.clip` produces for one
cell polygon, with the pixel selection of `rasterstats.zonal_stats` under
each rasterization mode made explicit (pixels are `Option ℚ`, `none` = NaN). -/
structure ClipSubset where
  pixelsExact : List (Option ℚ)
  pixelsAllTouched : List (Option ℚ)

/-- Pixels of a clipped subset under the chosen `all_touched` flag. -/
def selectPixels (all_touched : Bool) (s : ClipSubset) : List (Option ℚ) :=
  if all_touched then s.pixelsAllTouched else s.pixelsExact

/-- The valid pixels `rasterstats.zonal_stats` aggregates over: NaN pixels
(`none`) and pixels equal to the nodata value are masked out. -/
def validPixels (pixels : List (Option ℚ)) (nodata : ℚ) : List ℚ :=
  (pixels.filterMap id).filter (fun v => v ≠ nodata)

/-- NumPy median of a list of values: middle element of the sorted list if
the length is odd, otherwise the mean of the two middle elements; `none` on
the empty list. -/
def medianQ (l : List ℚ) : Option ℚ :=
  let s := l.insertionSort (· ≤ ·)
  if s = [] then none
  else if s.length % 2 = 1 then some (s.getD (s.length / 2) 0)
  else some ((s.getD (s.length / 2 - 1) 0 + s.getD (s.length / 2) 0) / 2)

/-- `range = max − min` over a list of values; `none` on the empty list. -/
def rangeQ (l : List ℚ) : Option ℚ :=
  match l with
  | [] => none
  | x :: xs => some (xs.foldl max x - xs.foldl min x)

/-- The `{"median": ..., "range": ...}` dictionary returned by
`zonal_stats(..., stats=["median", "range"])[0]`; a `None` statistic is
`none`. -/
structure ZonalSummary where
  median : Option ℚ
  range : Option ℚ
deriving DecidableEq

/-- `rasterstats.zonal_stats` on one polygon: mask nodata and NaN, then
compute median and range over the remaining valid pixels. -/
def zonal_stats_summary (pixels : List (Option ℚ)) (nodata : ℚ) : ZonalSummary :=
  let valid := validPixels pixels nodata
  { median := medianQ valid, range := rangeQ valid }

/-- One result row `{"cell": ..., "elevation_median": ..., "elevation_range": ...}`. -/
structure ElevationRow where
  cell : String
  elevation_median : ℚ
  elevation_range : ℚ
deriving DecidableEq

/-- A `pandas.DataFrame` built with an explicit column list. -/
structure DataFrame where
  columns : List String
  rows : List ElevationRow
deriving DecidableEq

/-- Bounding box (west, south, east, north) of a list of (lng, lat)
vertices; `none` for the empty list.  `Polygon.bounds` /
`MultiPolygon.bounds` in Shapely is exactly the componentwise min/max over
the geometry's vertices. -/
def boundsOf (pts : List (ℚ × ℚ)) : Option (ℚ × ℚ × ℚ × ℚ) :=
  match pts with
  | [] => none
  | p :: rest =>
    some (((rest.map Prod.fst).foldl min p.1),
          ((rest.map Prod.snd).foldl min p.2),
          ((rest.map Prod.fst).foldl max p.1),
          ((rest.map Prod.snd).foldl max p.2))

/-- `h3_cells_to_polygon` (shared helper of `nasadem.py` and `cop-dem.py`):
each cell's boundary is swapped to (lng, lat) and the polygons are unioned
with `unary_union`; the union geometry is represented by the list of its
member polygons (its extent — all we use — is the extent of the members). -/
def h3_cells_to_polygon (h3_cells : List H3Cell) : List GeoPolygon :=
  h3_cells.map cellPolygon

/-- `h3_cells_to_polygon(...).bounds`: the bounding box of the union
polygon, i.e. of all member polygons' vertices together. -/
def union_bounds (h3_cells : List H3Cell) : Option (ℚ × ℚ × ℚ × ℚ) :=
  boundsOf (h3_cells_to_polygon h3_cells).flatten

namespace Nasadem

/-- `OUTPUT_COLUMNS` of `nasadem.py`. -/
def OUTPUT_COLUMNS : List String := ["cell", "elevation_median", "elevation_range"]

/-- `DEFAULT_H3_RESOLUTION` of `nasadem.py`. -/
def DEFAULT_H3_RESOLUTION : ℕ := 11

/-- `NODATA_VALUE` of `nasadem.py`. -/
def NODATA_VALUE : ℚ := -999

/-- The loaded NASADEM raster as `compute_elevation_stats` consumes it:
`data.rio.clip` on a polygon (which may raise — `none`), and
`data.rio.nodata`. -/
structure RasterData where
  clip : GeoPolygon → Option ClipSubset
  nodata : ℚ

/-- The branch `if resolution > default_h3_resolution: all_touched = True
else: all_touched = False` of `compute_elevation_stats`. -/
def all_touched_of (resolution default_h3_resolution : ℕ) : Bool :=
  if resolution > default_h3_resolution then true else false

/-- The body of the per-cell loop of `compute_elevation_stats`
(`nasadem.py` lines 177–202): clip (skip the cell on failure), run
`zonal_stats`, and append a row only when no statistic is `None`. -/
def processCell (data : RasterData) (nodata : ℚ) (all_touched : Bool)
    (cell : H3Cell) : Option ElevationRow :=
  match data.clip (cellPolygon cell) with
  | none => none
  | some subset =>
    let summary := zonal_stats_summary (selectPixels all_touched subset) nodata
    match summary.median, summary.range with
    | some m, some r =>
      some { cell := cell.id, elevation_median := m, elevation_range := r }
    | _, _ => none

/-- `compute_elevation_stats` of `nasadem.py`: reads `h3_cells[0]` (an
`IndexError` on the empty list), fixes the rasterization policy from that
first cell's resolution, processes each cell, and assembles the dataframe
with `OUTPUT_COLUMNS`. -/
def compute_elevation_stats (data : RasterData) (h3_cells : List H3Cell)
    (default_h3_resolution : ℕ) : Except String DataFrame :=
  match h3_cells with
  | [] => Except.error "IndexError: list index out of range"
  | c0 :: _ =>
    let all_touched := all_touched_of c0.res default_h3_resolution
    let nodata := data.nodata
    Except.ok
      { columns := OUTPUT_COLUMNS
        rows := h3_cells.filterMap (processCell data nodata all_touched) }

/-- `load_nasadem_raster`: the odc/rio loading is external; the step the
recipe itself performs is `data.rio.write_nodata(NODATA_VALUE)`, so the
loaded raster carries nodata −999. -/
def load_nasadem_raster (clip : GeoPolygon → Option ClipSubset) : RasterData :=
  { clip := clip, nodata := NODATA_VALUE }

/-- `summarize_elevation` of `nasadem.py`: compute the union bounding box,
search for tiles (external `search_nasadem_tiles`, a parameter here); with
zero items return an empty dataframe with `OUTPUT_COLUMNS`; otherwise load
the raster (external odc load, a parameter) and compute the statistics. -/
def summarize_elevation {Item : Type}
    (search : Option (ℚ × ℚ × ℚ × ℚ) → List Item)
    (odcLoad : List Item → Option (ℚ × ℚ × ℚ × ℚ) → (GeoPolygon → Option ClipSubset))
    (h3_cells : List H3Cell) : Except String DataFrame :=
  let bbox := union_bounds h3_cells
  let items := search bbox
  if items.length = 0 then
    Except.ok { columns := OUTPUT_COLUMNS, rows := [] }
  else
    let data := load_nasadem_raster (odcLoad items bbox)
    compute_elevation_stats data h3_cells DEFAULT_H3_RESOLUTION

end Nasadem

namespace Copdem

/-- `OUTPUT_COLUMNS` of `cop-dem.py`. -/
def OUTPUT_COLUMNS : List String := ["cell", "elevation_median", "elevation_range"]

/-- `DEFAULT_H3_RESOLUTION` of `cop-dem.py`. -/
def DEFAULT_H3_RESOLUTION : ℕ := 11

/-- `NODATA_VALUE` of `cop-dem.py`: Copernicus DEM uses 0 as nodata. -/
def NODATA_VALUE : ℚ := 0

/-- A raw Copernicus DEM clipped subset, before `load_copdem_raster`'s
nodata handling: pixels are plain numbers as odc.stac delivers them. -/
structure RawClipSubset where
  pixelsExact : List ℚ
  pixelsAllTouched : List ℚ

/-- The raw loaded array as a clipping function (the odc/rio stack is
external; what matters is which pixels a cell polygon clips to). -/
def RawRaster : Type := GeoPolygon → Option RawClipSubset

/-- The loaded Copernicus DEM raster as `compute_elevation_stats` consumes
it: `data.rio.clip` on a polygon, possibly failing. -/
structure RasterData where
  clip : GeoPolygon → Option ClipSubset

/-- `data.where(data != NODATA_VALUE, np.nan)` applied to one pixel: a
pixel equal to the nodata value 0 becomes NaN (`none`). -/
def whereNotNodata (v : ℚ) : Option ℚ :=
  if v ≠ NODATA_VALUE then some v else none

/-- `load_copdem_raster` (`cop-dem.py` lines 145–161): load the raw tiles
(external) and replace value-0 pixels by NaN via
`data.where(data != NODATA_VALUE, np.nan)`. -/
def load_copdem_raster (raw : RawRaster) : RasterData :=
  { clip := fun poly =>
      (raw poly).map (fun s =>
        { pixelsExact := s.pixelsExact.map whereNotNodata
          pixelsAllTouched := s.pixelsAllTouched.map whereNotNodata }) }

/-- The branch `if resolution > default_h3_resolution: all_touched = True
else: all_touched = False` of `compute_elevation_stats` in `cop-dem.py`. -/
def all_touched_of (resolution default_h3_resolution : ℕ) : Bool :=
  if resolution > default_h3_resolution then true else false

/-- The body of the per-cell loop of `compute_elevation_stats`
(`cop-dem.py` lines 206–230): clip (skip the cell on failure), run
`zonal_stats` with `nodata=NODATA_VALUE`, append a row only when no
statistic is `None`. -/
def processCell (data : RasterData) (all_touched : Bool)
    (cell : H3Cell) : Option ElevationRow :=
  match data.clip (cellPolygon cell) with
  | none => none
  | some subset =>
    let summary := zonal_stats_summary (selectPixels all_touched subset) NODATA_VALUE
    match summary.median, summary.range with
    | some m, some r =>
      some { cell := cell.id, elevation_median := m, elevation_range := r }
    | _, _ => none

/-- `compute_elevation_stats` of `cop-dem.py`: reads `h3_cells[0]` (an
`IndexError` on the empty list), fixes the rasterization policy from that
first cell's resolution, processes each cell with `nodata = NODATA_VALUE`,
and assembles the dataframe with `OUTPUT_COLUMNS`. -/
def compute_elevation_stats (data : RasterData) (h3_cells : List H3Cell)
    (default_h3_resolution : ℕ) : Except String DataFrame :=
  match h3_cells with
  | [] => Except.error "IndexError: list index out of range"
  | c0 :: _ =>
    let all_touched := all_touched_of c0.res default_h3_resolution
    Except.ok
      { columns := OUTPUT_COLUMNS
        rows := h3_cells.filterMap (processCell data all_touched) }

/-- `summarize_elevation` of `cop-dem.py`: compute the union bounding box,
search for tiles (external, a parameter); with zero items return an empty
dataframe with `OUTPUT_COLUMNS`; otherwise load via `load_copdem_raster`
and compute the statistics. -/
def summarize_elevation {Item : Type}
    (search : Option (ℚ × ℚ × ℚ × ℚ) → List Item)
    (odcLoad : List Item → Option (ℚ × ℚ × ℚ × ℚ) → RawRaster)
    (h3_cells : List H3Cell) : Except String DataFrame :=
  let bbox := union_bounds h3_cells
  let items := search bbox
  if items.length = 0 then
    Except.ok { columns := OUTPUT_COLUMNS, rows := [] }
  else
    let data := load_copdem_raster (odcLoad items bbox)
    compute_elevation_stats data h3_cells DEFAULT_H3_RESOLUTION

end Copdem

namespace Worldcover

/-- `WORLDCOVER_CLASSES` of `esa-worldcover.py`, in dictionary insertion
order. -/
def WORLDCOVER_CLASSES : List (ℕ × String) :=
  [(0, "No Data"), (10, "Tree cover"), (20, "Shrubland"), (30, "Grassland"),
   (40, "Cropland"), (50, "Built-up"), (60, "Bare / sparse vegetation"),
   (70, "Snow and ice"), (80, "Permanent water bodies"),
   (90, "Herbaceous wetland"), (95, "Mangroves"), (100, "Moss and lichen")]

/-- `compute_class_fractions` of `esa-worldcover.py` (lines 118–141): a 2D
array of class values; no-data pixels (value 0) are excluded from the
denominator; with zero valid pixels, a dictionary mapping every class name
to 0.0 is returned; otherwise, for every class value except 0, the fraction
of pixels equal to that value among the valid pixels.  Python dict insertion
order is modelled by an association list. -/
def compute_class_fractions (classification : List (List ℕ)) : List (String × ℚ) :=
  let flat := classification.flatten
  let total_valid := (flat.filter (fun v => v ≠ 0)).length
  if total_valid = 0 then
    WORLDCOVER_CLASSES.map (fun p => (p.2, (0 : ℚ)))
  else
    (WORLDCOVER_CLASSES.filter (fun p => p.1 ≠ 0)).map
      (fun p => (p.2, ((flat.filter (fun v => v = p.1)).length : ℚ) / (total_valid : ℚ)))

end Worldcover

/-! ### Concrete sample data used by witnesses and counterexamples -/

/-- A sample resolution-5 cell. -/
def sampleCellA : H3Cell := ⟨"cell-a", 5, [(0, 0), (0, 1), (1, 0)]⟩

/-- A sample resolution-7 cell (different resolution from `sampleCellA`). -/
def sampleCellB : H3Cell := ⟨"cell-b", 7, [(0, 0), (0, 1), (1, 1)]⟩

/-- A sample resolution-12 cell (finer than the reference resolution 11). -/
def sampleCellFine : H3Cell := ⟨"cell-f", 12, [(2, 2), (2, 3), (3, 2)]⟩

/-- A NASADEM raster on which every clip fails (no coverage anywhere). -/
def emptyRasterN : Nasadem.RasterData := ⟨fun _ => none, -999⟩

/-- A NASADEM raster on which every clip succeeds but every pixel is the
nodata value −999. -/
def nodataRasterN : Nasadem.RasterData :=
  ⟨fun _ => some ⟨[some (-999)], [some (-999)]⟩, -999⟩

/-- A raw Copernicus DEM raster on which every clip yields a single pixel
of value 0 (sea level / nodata). -/
def zeroRawRasterC : Copdem.RawRaster := fun _ => some ⟨[0], [0]⟩

/-! ### General helper lemmas -/

theorem medianQ_nil : medianQ [] = none := rfl

theorem rangeQ_nil : rangeQ [] = none := rfl

theorem processCell_eq_none_of_clip_none (data : Nasadem.RasterData)
    (nodata : ℚ) (b : Bool) (c : H3Cell)
    (h : data.clip (cellPolygon c) = none) :
    Nasadem.processCell data nodata b c = none := by
  simp [Nasadem.processCell, h]

theorem processCell_eq_none_of_valid_nil (data : Nasadem.RasterData)
    (nodata : ℚ) (b : Bool) (c : H3Cell) (s : ClipSubset)
    (hclip : data.clip (cellPolygon c) = some s)
    (hvalid : validPixels (selectPixels b s) nodata = []) :
    Nasadem.processCell data nodata b c = none := by
  simp [Nasadem.processCell, hclip, zonal_stats_summary, hvalid, medianQ_nil]

/-! ### Claim theorems -/

/-- C2: the rasterization policy of both elevation recipes selects
ALL_TOUCHED (`all_touched = true`) exactly when the batch's H3 resolution
is strictly greater (finer) than the source's reference resolution, and
EXACT (`all_touched = false`) otherwise; `compute_elevation_stats` applies
that policy, derived from the batch's (uniform) resolution, to every cell
of the batch. -/
theorem c2_all_touched_policy (res ref : ℕ) (data : Nasadem.RasterData)
    (c0 : H3Cell) (cs : List H3Cell) (d : ℕ)
    (hres : ∀ x ∈ c0 :: cs, x.res = res) :
    (Nasadem.all_touched_of res ref = true ↔ ref < res) ∧
    (Copdem.all_touched_of res ref = true ↔ ref < res) ∧
    Nasadem.compute_elevation_stats data (c0 :: cs) d =
      Except.ok { columns := Nasadem.OUTPUT_COLUMNS
                  rows := (c0 :: cs).filterMap
                    (Nasadem.processCell data data.nodata (Nasadem.all_touched_of res d)) } := by
  have h0 : c0.res = res := hres c0 (List.mem_cons_self c0 cs)
  refine ⟨?_, ?_, ?_⟩
  · by_cases h : ref < res <;> simp [Nasadem.all_touched_of, h]
  · by_cases h : ref < res <;> simp [Copdem.all_touched_of, h]
  · simp [Nasadem.compute_elevation_stats, h0]

/-- C2 witness: the policy evaluated at a concrete finer-than-reference
batch (resolution 12 against reference 11). -/
theorem c2_witness :
    (∀ x ∈ [sampleCellFine], x.res = 12) ∧
    (Nasadem.all_touched_of 12 11 = true ↔ 11 < 12) ∧
    Nasadem.compute_elevation_stats emptyRasterN [sampleCellFine] 11 =
      Except.ok { columns := Nasadem.OUTPUT_COLUMNS
                  rows := [sampleCellFine].filterMap
                    (Nasadem.processCell emptyRasterN emptyRasterN.nodata
                      (Nasadem.all_touched_of 12 11)) } := by
  refine ⟨by decide, ?_, ?_⟩
  · exact (c2_all_touched_policy 12 11 emptyRasterN sampleCellFine [] 11 (by decide)).1
  · exact (c2_all_touched_policy 12 11 emptyRasterN sampleCellFine [] 11 (by decide)).2.2

/-- C3 counterexample: a batch mixing resolutions 5 and 7 is not rejected —
`compute_elevation_stats` proceeds (returning a dataframe, not an error),
using the first cell's resolution for the policy; no `MixedResolutionError`
exists in the code. -/
theorem c3_counterexample :
    sampleCellA.res ≠ sampleCellB.res ∧
    Nasadem.compute_elevation_stats emptyRasterN [sampleCellA, sampleCellB] 11
      = Except.ok { columns := Nasadem.OUTPUT_COLUMNS, rows := [] } := by
  exact ⟨by decide, rfl⟩

/-- C3 amended: a batch whose cell identifiers do not all share the same
H3 resolution is NOT rejected: both recipes' `compute_elevation_stats`
derive the rasterization policy from the first cell's resolution and
proceed over the whole batch, never failing on any non-empty batch. -/
theorem c3_amended_first_cell_policy (dataN : Nasadem.RasterData)
    (dataC : Copdem.RasterData) (c0 : H3Cell) (cs : List H3Cell) (d : ℕ) :
    Nasadem.compute_elevation_stats dataN (c0 :: cs) d =
      Except.ok { columns := Nasadem.OUTPUT_COLUMNS
                  rows := (c0 :: cs).filterMap
                    (Nasadem.processCell dataN dataN.nodata
                      (Nasadem.all_touched_of c0.res d)) } ∧
    Copdem.compute_elevation_stats dataC (c0 :: cs) d =
      Except.ok { columns := Copdem.OUTPUT_COLUMNS
                  rows := (c0 :: cs).filterMap
                    (Copdem.processCell dataC (Copdem.all_touched_of c0.res d)) } :=
  ⟨rfl, rfl⟩

/-- C3 amended, witness at the concrete mixed-resolution batch. -/
theorem c3_amended_witness :
    Nasadem.compute_elevation_stats emptyRasterN [sampleCellA, sampleCellB] 11 =
      Except.ok { columns := Nasadem.OUTPUT_COLUMNS
                  rows := [sampleCellA, sampleCellB].filterMap
                    (Nasadem.processCell emptyRasterN emptyRasterN.nodata
                      (Nasadem.all_touched_of sampleCellA.res 11)) } :=
  (c3_amended_first_cell_policy emptyRasterN ⟨fun _ => none⟩ sampleCellA [sampleCellB] 11).1

/-- C10: on the empty cell list, `compute_elevation_stats` of both
elevation recipes does not return an empty table; it unconditionally reads
`h3_cells[0]` and fails with an `IndexError`. -/
theorem c10_empty_cells_index_error (dataN : Nasadem.RasterData)
    (dataC : Copdem.RasterData) (d : ℕ) :
    Nasadem.compute_elevation_stats dataN [] d
      = Except.error "IndexError: list index out of range" ∧
    Copdem.compute_elevation_stats dataC [] d
      = Except.error "IndexError: list index out of range" :=
  ⟨rfl, rfl⟩

/-- C10 witness at a concrete raster. -/
theorem c10_witness :
    Nasadem.compute_elevation_stats emptyRasterN [] 11
      = Except.error "IndexError: list index out of range" :=
  (c10_empty_cells_index_error emptyRasterN ⟨fun _ => none⟩ 11).1

/-- C6: when a cell's polygon has no raster coverage (`rio.clip` raises,
modelled as `clip = none`), the failure is caught inside the per-cell loop:
the batch result is still a successful dataframe, the no-coverage cell
contributes zero rows, and the remaining cells produce exactly what they
would have produced had the no-coverage cell not been in the batch. -/
theorem c6_no_coverage_skip (data : Nasadem.RasterData) (c0 c : H3Cell)
    (xs ys : List H3Cell) (d : ℕ)
    (h : data.clip (cellPolygon c) = none) :
    ∃ df, Nasadem.compute_elevation_stats data (c0 :: (xs ++ c :: ys)) d = Except.ok df ∧
          Nasadem.compute_elevation_stats data (c0 :: (xs ++ ys)) d = Except.ok df := by
  have hfc : Nasadem.processCell data data.nodata (Nasadem.all_touched_of c0.res d) c = none :=
    processCell_eq_none_of_clip_none data data.nodata _ c h
  refine ⟨_, ?_, rfl⟩
  simp [Nasadem.compute_elevation_stats, List.filterMap_cons, List.filterMap_append, hfc]

/-- C6 witness: a raster with no coverage anywhere; the no-coverage cell in
the middle of a concrete batch is skipped and the batch result equals the
result without it. -/
theorem c6_witness :
    emptyRasterN.clip (cellPolygon sampleCellB) = none ∧
    ∃ df, Nasadem.compute_elevation_stats emptyRasterN
            [sampleCellA, sampleCellB, sampleCellFine] 11 = Except.ok df ∧
          Nasadem.compute_elevation_stats emptyRasterN
            [sampleCellA, sampleCellFine] 11 = Except.ok df :=
  ⟨rfl, c6_no_coverage_skip emptyRasterN sampleCellA sampleCellB [] [sampleCellFine] 11 rfl⟩

/-- C1 counterexample: the claim fails on
`esa-worldcover.compute_class_fractions` — on a clip whose pixels are all
nodata (value 0, so zero valid pixels) it does NOT emit nothing: it returns
a mapping carrying a fabricated statistic value 0.0 for every class. -/
theorem c1_counterexample :
    (([[0]] : List (List ℕ)).flatten.filter (fun v => v ≠ 0)).length = 0 ∧
    ("Tree cover", (0 : ℚ)) ∈ Worldcover.compute_class_fractions [[0]] ∧
    Worldcover.compute_class_fractions [[0]] ≠ [] := by
  refine ⟨by decide, by decide, by decide⟩

/-- C1 amended: in the elevation recipes, a cell whose clipped subset
contains zero valid (non-nodata) pixels yields no result row (the batch
result equals the result without that cell); but in the ESA WorldCover
recipe, `compute_class_fractions` on a clip with zero valid pixels returns
a dense mapping of every class name to the value 0.0 instead of emitting
nothing. -/
theorem c1_amended_zero_valid_skip
    (data : Nasadem.RasterData) (c0 c : H3Cell) (xs ys : List H3Cell) (d : ℕ)
    (s : ClipSubset)
    (hclip : data.clip (cellPolygon c) = some s)
    (hvalid : validPixels (selectPixels (Nasadem.all_touched_of c0.res d) s) data.nodata = []) :
    (∃ df, Nasadem.compute_elevation_stats data (c0 :: (xs ++ c :: ys)) d = Except.ok df ∧
           Nasadem.compute_elevation_stats data (c0 :: (xs ++ ys)) d = Except.ok df) ∧
    ∀ classification : List (List ℕ),
      (classification.flatten.filter (fun v => v ≠ 0)).length = 0 →
      Worldcover.compute_class_fractions classification
        = Worldcover.WORLDCOVER_CLASSES.map (fun p => (p.2, (0 : ℚ))) := by
  constructor
  · have hfc : Nasadem.processCell data data.nodata (Nasadem.all_touched_of c0.res d) c = none :=
      processCell_eq_none_of_valid_nil data data.nodata _ c s hclip hvalid
    refine ⟨_, ?_, rfl⟩
    simp [Nasadem.compute_elevation_stats, List.filterMap_cons, List.filterMap_append, hfc]
  · intro classification hzero
    simp only [Worldcover.compute_class_fractions]
    rw [if_pos hzero]

/-- C1 amended, witness: a raster whose clips contain only nodata pixels;
the all-nodata cell contributes no row, and `compute_class_fractions` on an
all-nodata array returns the dense zero mapping. -/
theorem c1_amended_witness :
    nodataRasterN.clip (cellPolygon sampleCellB)
      = some ⟨[some (-999)], [some (-999)]⟩ ∧
    validPixels (selectPixels (Nasadem.all_touched_of sampleCellA.res 11)
      (⟨[some (-999)], [some (-999)]⟩ : ClipSubset)) nodataRasterN.nodata = [] ∧
    (∃ df, Nasadem.compute_elevation_stats nodataRasterN
             [sampleCellA, sampleCellB] 11 = Except.ok df ∧
           Nasadem.compute_elevation_stats nodataRasterN
             [sampleCellA] 11 = Except.ok df) ∧
    Worldcover.compute_class_fractions [[0]]
      = Worldcover.WORLDCOVER_CLASSES.map (fun p => (p.2, (0 : ℚ))) := by
  have h := c1_amended_zero_valid_skip nodataRasterN sampleCellA sampleCellB [] [] 11
    ⟨[some (-999)], [some (-999)]⟩ rfl (by decide)
  exact ⟨rfl, by decide, h.1, h.2 [[0]] (by decide)⟩

/-- Any dataframe an elevation `compute_elevation_stats` successfully
returns carries exactly the declared `OUTPUT_COLUMNS` schema. -/
theorem nasadem_ok_columns (data : Nasadem.RasterData) (cells : List H3Cell)
    (d : ℕ) (df : DataFrame)
    (h : Nasadem.compute_elevation_stats data cells d = Except.ok df) :
    df.columns = Nasadem.OUTPUT_COLUMNS := by
  cases cells with
  | nil => exact absurd h (by simp [Nasadem.compute_elevation_stats])
  | cons c0 cs =>
    rw [Nasadem.compute_elevation_stats] at h
    cases h
    rfl

/-- Copernicus DEM version of `nasadem_ok_columns`. -/
theorem copdem_ok_columns (data : Copdem.RasterData) (cells : List H3Cell)
    (d : ℕ) (df : DataFrame)
    (h : Copdem.compute_elevation_stats data cells d = Except.ok df) :
    df.columns = Copdem.OUTPUT_COLUMNS := by
  cases cells with
  | nil => exact absurd h (by simp [Copdem.compute_elevation_stats])
  | cons c0 cs =>
    rw [Copdem.compute_elevation_stats] at h
    cases h
    rfl

/-- C7: every table either elevation pipeline returns carries exactly the
declared output column schema, and when the source search returns zero
items the pipeline returns an empty table with that schema (never an
omitted result). -/
theorem c7_empty_schema {I1 I2 : Type}
    (search1 : Option (ℚ × ℚ × ℚ × ℚ) → List I1)
    (load1 : List I1 → Option (ℚ × ℚ × ℚ × ℚ) → (GeoPolygon → Option ClipSubset))
    (search2 : Option (ℚ × ℚ × ℚ × ℚ) → List I2)
    (load2 : List I2 → Option (ℚ × ℚ × ℚ × ℚ) → Copdem.RawRaster)
    (cells : List H3Cell) :
    (∀ df, Nasadem.summarize_elevation search1 load1 cells = Except.ok df →
      df.columns = Nasadem.OUTPUT_COLUMNS) ∧
    (search1 (union_bounds cells) = [] →
      Nasadem.summarize_elevation search1 load1 cells
        = Except.ok { columns := Nasadem.OUTPUT_COLUMNS, rows := [] }) ∧
    (∀ df, Copdem.summarize_elevation search2 load2 cells = Except.ok df →
      df.columns = Copdem.OUTPUT_COLUMNS) ∧
    (search2 (union_bounds cells) = [] →
      Copdem.summarize_elevation search2 load2 cells
        = Except.ok { columns := Copdem.OUTPUT_COLUMNS, rows := [] }) := by
  refine ⟨?_, ?_, ?_, ?_⟩
  · intro df h
    rw [Nasadem.summarize_elevation] at h
    by_cases hlen : (search1 (union_bounds cells)).length = 0
    · rw [if_pos hlen] at h
      cases h
      rfl
    · rw [if_neg hlen] at h
      exact nasadem_ok_columns _ cells _ df h
  · intro hempty
    rw [Nasadem.summarize_elevation]
    simp [hempty]
  · intro df h
    rw [Copdem.summarize_elevation] at h
    by_cases hlen : (search2 (union_bounds cells)).length = 0
    · rw [if_pos hlen] at h
      cases h
      rfl
    · rw [if_neg hlen] at h
      exact copdem_ok_columns _ cells _ df h
  · intro hempty
    rw [Copdem.summarize_elevation]
    simp [hempty]

/-- `data.where(data != 0, np.nan)` never leaves a pixel of value 0. -/
theorem whereNotNodata_ne_some_zero (v : ℚ) :
    Copdem.whereNotNodata v ≠ some 0 := by
  by_cases h : v = 0 <;> simp [Copdem.whereNotNodata, Copdem.NODATA_VALUE, h]

/-- A pixel list consisting only of NaN (`none`) pixels has no valid
pixels. -/
theorem validPixels_eq_nil_of_all_none (pixels : List (Option ℚ)) (nodata : ℚ)
    (h : ∀ p ∈ pixels, p = none) : validPixels pixels nodata = [] := by
  induction pixels with
  | nil => rfl
  | cons p ps ih =>
    have hp : p = none := h p (List.mem_cons_self _ _)
    subst hp
    have := ih (fun q hq => h q (List.mem_cons_of_mem _ hq))
    simpa [validPixels, List.filterMap_cons] using this

/-- C9: in the Copernicus DEM pipeline, value-0 pixels are treated as
nodata both at load time (every clip of the loaded raster carries no pixel
of value 0 — they became NaN) and at statistics time (no list of pixels has
a valid pixel of value 0 under `nodata = NODATA_VALUE = 0`), and a cell
whose clipped pixels are all exactly 0 yields no row. -/
theorem c9_copdem_zero_nodata
    (raw : Copdem.RawRaster) (c : H3Cell) (b : Bool) (rs : Copdem.RawClipSubset)
    (hclip : raw (cellPolygon c) = some rs)
    (hzero : ∀ v ∈ (if b then rs.pixelsAllTouched else rs.pixelsExact), v = 0) :
    (∀ poly s, (Copdem.load_copdem_raster raw).clip poly = some s →
        some (0 : ℚ) ∉ s.pixelsExact ∧ some (0 : ℚ) ∉ s.pixelsAllTouched) ∧
    (∀ pixels : List (Option ℚ), (0 : ℚ) ∉ validPixels pixels Copdem.NODATA_VALUE) ∧
    Copdem.processCell (Copdem.load_copdem_raster raw) b c = none := by
  have hload : ∀ poly, (Copdem.load_copdem_raster raw).clip poly
      = (raw poly).map (fun t =>
          { pixelsExact := t.pixelsExact.map Copdem.whereNotNodata
            pixelsAllTouched := t.pixelsAllTouched.map Copdem.whereNotNodata }) :=
    fun _ => rfl
  refine ⟨?_, ?_, ?_⟩
  · intro poly s hs
    rw [hload] at hs
    cases hraw : raw poly with
    | none => rw [hraw] at hs; cases hs
    | some t =>
      rw [hraw, Option.map_some'] at hs
      obtain rfl := (Option.some.inj hs).symm
      constructor <;>
      · intro hmem
        obtain ⟨v, _, hveq⟩ := List.mem_map.1 hmem
        exact whereNotNodata_ne_some_zero v hveq
  · intro pixels hmem
    have h2 := (List.mem_filter.1 hmem).2
    simp [Copdem.NODATA_VALUE] at h2
  · have hallnone : ∀ p ∈ (if b then rs.pixelsAllTouched else rs.pixelsExact).map
        Copdem.whereNotNodata, p = none := by
      intro p hp
      obtain ⟨v, hv, rfl⟩ := List.mem_map.1 hp
      simp [Copdem.whereNotNodata, Copdem.NODATA_VALUE, hzero v hv]
    have hvalid := validPixels_eq_nil_of_all_none _ Copdem.NODATA_VALUE hallnone
    have hsel : selectPixels b
        ⟨rs.pixelsExact.map Copdem.whereNotNodata,
         rs.pixelsAllTouched.map Copdem.whereNotNodata⟩
        = (if b then rs.pixelsAllTouched else rs.pixelsExact).map Copdem.whereNotNodata := by
      cases b <;> rfl
    simp [Copdem.processCell, Copdem.load_copdem_raster, hclip, hsel,
      zonal_stats_summary, hvalid, medianQ_nil]

/-- C9 witness: a concrete raw raster whose every clip is a single pixel of
value 0 — the loaded raster has no value-0 pixel anywhere, and the all-zero
cell yields no row. -/
theorem c9_witness :
    zeroRawRasterC (cellPolygon sampleCellA) = some ⟨[0], [0]⟩ ∧
    (∀ v ∈ (if true then (⟨[0], [0]⟩ : Copdem.RawClipSubset).pixelsAllTouched
        else (⟨[0], [0]⟩ : Copdem.RawClipSubset).pixelsExact), v = 0) ∧
    Copdem.processCell (Copdem.load_copdem_raster zeroRawRasterC) true sampleCellA
      = none := by
  refine ⟨rfl, by decide, ?_⟩
  exact (c9_copdem_zero_nodata zeroRawRasterC sampleCellA true ⟨[0], [0]⟩ rfl (by decide)).2.2

/-- C4 counterexample: class 20 (Shrubland) is absent from the concrete
clip `[[10]]`, yet `compute_class_fractions` includes a "Shrubland" entry
with value 0.0 — absent classes are not omitted, and no caller switch for a
dense histogram exists. -/
theorem c4_counterexample :
    (∀ v ∈ ([[10]] : List (List ℕ)).flatten, v ≠ 20) ∧
    ("Shrubland", (0 : ℚ)) ∈ Worldcover.compute_class_fractions [[10]] := by
  refine ⟨by decide, ?_⟩
  norm_num [Worldcover.compute_class_fractions, Worldcover.WORLDCOVER_CLASSES]

/-- C4 amended: the mapping returned by `compute_class_fractions` is
unconditionally dense: whenever the clip has at least one valid pixel, it
carries one entry per known class code except the nodata class 0 (absent
classes included with value 0.0); with zero valid pixels it carries one
entry per known class code including class 0. -/
theorem c4_amended_dense_histogram (classification : List (List ℕ)) :
    (Worldcover.compute_class_fractions classification).map Prod.fst =
      if (classification.flatten.filter (fun v => v ≠ 0)).length = 0
      then Worldcover.WORLDCOVER_CLASSES.map Prod.snd
      else (Worldcover.WORLDCOVER_CLASSES.filter (fun p => p.1 ≠ 0)).map Prod.snd := by
  simp only [Worldcover.compute_class_fractions]
  by_cases h : (classification.flatten.filter (fun v => v ≠ 0)).length = 0
  · rw [if_pos h, if_pos h, List.map_map]
    rfl
  · rw [if_neg h, if_neg h, List.map_map]
    rfl

/-- C4 amended, witness at the concrete clip `[[10]]`. -/
theorem c4_amended_witness :
    (Worldcover.compute_class_fractions [[10]]).map Prod.fst
      = (Worldcover.WORLDCOVER_CLASSES.filter (fun p => p.1 ≠ 0)).map Prod.snd := by
  rw [c4_amended_dense_histogram [[10]], if_neg (by decide)]

/-- The class codes `compute_class_fractions` iterates over (all known
WorldCover codes except the nodata code 0). -/
def knownClassCodes : List ℕ :=
  (Worldcover.WORLDCOVER_CLASSES.filter (fun p => p.1 ≠ 0)).map Prod.fst

theorem knownClassCodes_eq :
    knownClassCodes = [10, 20, 30, 40, 50, 60, 70, 80, 90, 95, 100] := by decide

/-- Summing the indicator of `x` over a duplicate-free code list counts
whether `x` is one of the codes. -/
theorem sum_map_ite_mem (x : ℕ) (codes : List ℕ) (hnd : codes.Nodup) :
    (codes.map (fun p => if x = p then (1 : ℕ) else 0)).sum
      = if x ∈ codes then 1 else 0 := by
  induction codes with
  | nil => rfl
  | cons q qs ih =>
    rw [List.nodup_cons] at hnd
    obtain ⟨hq, hqs⟩ := hnd
    simp only [List.map_cons, List.sum_cons, ih hqs, List.mem_cons]
    by_cases h : x = q
    · subst h
      simp [hq]
    · simp [h]

/-- Partition of the valid-pixel count: per-code pixel counts over a
duplicate-free code list (not containing the nodata code 0) sum to the
total valid-pixel count, provided every non-nodata pixel value is one of
the codes. -/
theorem count_partition (codes : List ℕ) (hnd : codes.Nodup)
    (h0 : (0 : ℕ) ∉ codes) :
    ∀ flat : List ℕ, (∀ v ∈ flat, v ≠ 0 → v ∈ codes) →
      (codes.map (fun p => (flat.filter (fun v => v = p)).length)).sum
        = (flat.filter (fun v => v ≠ 0)).length := by
  intro flat
  induction flat with
  | nil =>
    intro _
    simp
  | cons x rest ih =>
    intro hkn
    have hrest := ih (fun v hv => hkn v (List.mem_cons_of_mem _ hv))
    have hsplit : (fun p : ℕ => ((x :: rest).filter (fun v => v = p)).length)
        = (fun p : ℕ => (if x = p then 1 else 0) + (rest.filter (fun v => v = p)).length) := by
      funext p
      by_cases h : x = p
      · simp [List.filter_cons, h]
        omega
      · simp [List.filter_cons, h]
    rw [hsplit, List.sum_map_add, sum_map_ite_mem x codes hnd, hrest]
    by_cases hx : x = 0
    · subst hx
      rw [if_neg h0]
      simp [List.filter_cons]
    · have hxc : x ∈ codes := hkn x (List.mem_cons_self _ _) hx
      rw [if_pos hxc]
      simp [List.filter_cons, hx]
      omega

/-- C5 counterexample: the clip `[[42]]` contains one valid (non-nodata)
pixel, yet the emitted per-class fractions sum to 0 (the value 42 is not a
WorldCover class code, so it is counted in the denominator but appears in
no class's numerator). -/
theorem c5_counterexample :
    (([[42]] : List (List ℕ)).flatten.filter (fun v => v ≠ 0)).length = 1 ∧
    ((Worldcover.compute_class_fractions [[42]]).map Prod.snd).sum = 0 := by
  refine ⟨by decide, ?_⟩
  norm_num [Worldcover.compute_class_fractions, Worldcover.WORLDCOVER_CLASSES]

/-- C5 amended: for every clip containing at least one valid pixel whose
valid pixel values all carry known (non-nodata) WorldCover class codes, the
emitted per-class fractions sum exactly to 1. -/
theorem c5_amended_fraction_sum (classification : List (List ℕ))
    (hvalid : (classification.flatten.filter (fun v => v ≠ 0)).length ≠ 0)
    (hknown : ∀ v ∈ classification.flatten, v ≠ 0 → v ∈ knownClassCodes) :
    ((Worldcover.compute_class_fractions classification).map Prod.snd).sum = 1 := by
  have hnd : knownClassCodes.Nodup := by decide
  have h0 : (0 : ℕ) ∉ knownClassCodes := by decide
  have hpart := count_partition knownClassCodes hnd h0 classification.flatten hknown
  simp only [Worldcover.compute_class_fractions]
  rw [if_neg hvalid]
  rw [List.map_map]
  have hfun : (Prod.snd ∘ fun p : ℕ × String =>
      (p.2, ((classification.flatten.filter (fun v => v = p.1)).length : ℚ)
            / ((classification.flatten.filter (fun v => v ≠ 0)).length : ℚ)))
      = ((fun c : ℕ => ((classification.flatten.filter (fun v => v = c)).length : ℚ)
            / ((classification.flatten.filter (fun v => v ≠ 0)).length : ℚ)) ∘ Prod.fst) := rfl
  rw [hfun, ← List.map_map]
  have hcodes : (Worldcover.WORLDCOVER_CLASSES.filter (fun p => p.1 ≠ 0)).map Prod.fst
      = knownClassCodes := rfl
  rw [hcodes]
  simp only [div_eq_mul_inv]
  rw [List.sum_map_mul_right]
  have hcast : (knownClassCodes.map fun c =>
      ((classification.flatten.filter (fun v => v = c)).length : ℚ))
      = ((knownClassCodes.map fun c =>
          (classification.flatten.filter (fun v => v = c)).length).map (Nat.cast : ℕ → ℚ)) := by
    rw [List.map_map]
    rfl
  rw [hcast, ← Nat.cast_list_sum, hpart]
  exact mul_inv_cancel₀ (Nat.cast_ne_zero.2 hvalid)

/-- C5 amended, witness at the concrete clip `[[10, 20]]`. -/
theorem c5_amended_witness :
    ((([[10, 20]] : List (List ℕ)).flatten.filter (fun v => v ≠ 0)).length ≠ 0) ∧
    ((Worldcover.compute_class_fractions [[10, 20]]).map Prod.snd).sum = 1 :=
  ⟨by decide, c5_amended_fraction_sum [[10, 20]] (by decide) (by decide)⟩

/-- A left min-fold is below its seed and below every folded element. -/
theorem foldl_min_le (l : List ℚ) :
    ∀ d : ℚ, l.foldl min d ≤ d ∧ ∀ a ∈ l, l.foldl min d ≤ a := by
  induction l with
  | nil =>
    intro d
    exact ⟨le_refl d, by simp⟩
  | cons x xs ih =>
    intro d
    have h := ih (min d x)
    refine ⟨le_trans h.1 (min_le_left d x), ?_⟩
    intro a ha
    rcases List.mem_cons.1 ha with rfl | ha'
    · exact le_trans h.1 (min_le_right d a)
    · exact h.2 a ha'

/-- A lower bound of the seed and of every element bounds the min-fold. -/
theorem le_foldl_min (m : ℚ) :
    ∀ (xs : List ℚ) (x : ℚ), (∀ a ∈ x :: xs, m ≤ a) → m ≤ xs.foldl min x := by
  intro xs
  induction xs with
  | nil =>
    intro x h
    exact h x (List.mem_cons_self _ _)
  | cons z zs ih =>
    intro x h
    show m ≤ zs.foldl min (min x z)
    apply ih
    intro a ha
    rcases List.mem_cons.1 ha with rfl | ha'
    · exact le_min (h x (by simp)) (h z (by simp))
    · exact h a (by simp [ha'])

/-- A left max-fold is above its seed and above every folded element. -/
theorem le_foldl_max (l : List ℚ) :
    ∀ d : ℚ, d ≤ l.foldl max d ∧ ∀ a ∈ l, a ≤ l.foldl max d := by
  induction l with
  | nil =>
    intro d
    exact ⟨le_refl d, by simp⟩
  | cons x xs ih =>
    intro d
    have h := ih (max d x)
    refine ⟨le_trans (le_max_left d x) h.1, ?_⟩
    intro a ha
    rcases List.mem_cons.1 ha with rfl | ha'
    · exact le_trans (le_max_right d a) h.1
    · exact h.2 a ha'

/-- An upper bound of the seed and of every element bounds the max-fold. -/
theorem foldl_max_le (m : ℚ) :
    ∀ (xs : List ℚ) (x : ℚ), (∀ a ∈ x :: xs, a ≤ m) → xs.foldl max x ≤ m := by
  intro xs
  induction xs with
  | nil =>
    intro x h
    exact h x (List.mem_cons_self _ _)
  | cons z zs ih =>
    intro x h
    show zs.foldl max (max x z) ≤ m
    apply ih
    intro a ha
    rcases List.mem_cons.1 ha with rfl | ha'
    · exact max_le (h x (by simp)) (h z (by simp))
    · exact h a (by simp [ha'])

/-- The min-fold over a nonempty list bounds the min-fold over any
nonempty collection of its members from below. -/
theorem foldl_min_subset (x : ℚ) (xs : List ℚ) (y : ℚ) (ys : List ℚ)
    (h : ∀ a ∈ x :: xs, a ∈ y :: ys) :
    ys.foldl min y ≤ xs.foldl min x := by
  apply le_foldl_min
  intro a ha
  rcases List.mem_cons.1 (h a ha) with rfl | ha'
  · exact (foldl_min_le ys a).1
  · exact (foldl_min_le ys y).2 a ha'

/-- The max-fold over a nonempty list bounds the max-fold over any
nonempty collection of its members from above. -/
theorem foldl_max_subset (x : ℚ) (xs : List ℚ) (y : ℚ) (ys : List ℚ)
    (h : ∀ a ∈ x :: xs, a ∈ y :: ys) :
    xs.foldl max x ≤ ys.foldl max y := by
  apply foldl_max_le
  intro a ha
  rcases List.mem_cons.1 (h a ha) with rfl | ha'
  · exact (le_foldl_max ys a).1
  · exact (le_foldl_max ys y).2 a ha'

/-- The bounding box of a vertex list contains the bounding box of any
nonempty collection of its vertices. -/
theorem boundsOf_contains (sub big : List (ℚ × ℚ))
    (hsub : ∀ p ∈ sub, p ∈ big) (hne : sub ≠ []) :
    ∃ uw us ue un cw csouth ce cn,
      boundsOf big = some (uw, us, ue, un) ∧
      boundsOf sub = some (cw, csouth, ce, cn) ∧
      uw ≤ cw ∧ us ≤ csouth ∧ ce ≤ ue ∧ cn ≤ un := by
  cases sub with
  | nil => exact absurd rfl hne
  | cons p rest =>
    cases big with
    | nil => exact absurd (hsub p (List.mem_cons_self _ _)) (by simp)
    | cons q rest2 =>
      have hfst : ∀ a ∈ p.1 :: rest.map Prod.fst, a ∈ q.1 :: rest2.map Prod.fst := by
        intro a ha
        have ha' : a ∈ (p :: rest).map Prod.fst := ha
        obtain ⟨pp, hpp, rfl⟩ := List.mem_map.1 ha'
        exact List.mem_map.2 ⟨pp, hsub pp hpp, rfl⟩
      have hsnd : ∀ a ∈ p.2 :: rest.map Prod.snd, a ∈ q.2 :: rest2.map Prod.snd := by
        intro a ha
        have ha' : a ∈ (p :: rest).map Prod.snd := ha
        obtain ⟨pp, hpp, rfl⟩ := List.mem_map.1 ha'
        exact List.mem_map.2 ⟨pp, hsub pp hpp, rfl⟩
      exact ⟨_, _, _, _, _, _, _, _, rfl, rfl,
        foldl_min_subset p.1 (rest.map Prod.fst) q.1 (rest2.map Prod.fst) hfst,
        foldl_min_subset p.2 (rest.map Prod.snd) q.2 (rest2.map Prod.snd) hsnd,
        foldl_max_subset p.1 (rest.map Prod.fst) q.1 (rest2.map Prod.fst) hfst,
        foldl_max_subset p.2 (rest.map Prod.snd) q.2 (rest2.map Prod.snd) hsnd⟩

/-- C8: for a non-empty uniform-resolution batch of valid cells, the
bounding box of the union polygon of all cells contains every individual
cell's own polygon bounding box. -/
theorem c8_union_bounds_contains (cells : List H3Cell) (c : H3Cell) (r : ℕ)
    (hmem : c ∈ cells) (hne : c.boundary ≠ [])
    (hres : ∀ x ∈ cells, x.res = r) :
    ∃ uw us ue un cw csouth ce cn,
      union_bounds cells = some (uw, us, ue, un) ∧
      boundsOf (cellPolygon c) = some (cw, csouth, ce, cn) ∧
      uw ≤ cw ∧ us ≤ csouth ∧ ce ≤ ue ∧ cn ≤ un := by
  have hpoly : cellPolygon c ≠ [] := by
    intro habs
    rw [cellPolygon, List.map_eq_nil_iff] at habs
    exact hne habs
  show ∃ uw us ue un cw csouth ce cn,
    boundsOf ((cells.map cellPolygon).flatten) = some (uw, us, ue, un) ∧ _
  apply boundsOf_contains (cellPolygon c) ((cells.map cellPolygon).flatten) ?_ hpoly
  intro p hp
  exact List.mem_flatten.2 ⟨cellPolygon c, List.mem_map.2 ⟨c, hmem, rfl⟩, hp⟩

/-- C8 witness at a concrete one-cell batch. -/
theorem c8_witness :
    sampleCellA ∈ [sampleCellA] ∧ sampleCellA.boundary ≠ [] ∧
    (∀ x ∈ [sampleCellA], x.res = 5) ∧
    ∃ uw us ue un cw csouth ce cn,
      union_bounds [sampleCellA] = some (uw, us, ue, un) ∧
      boundsOf (cellPolygon sampleCellA) = some (cw, csouth, ce, cn) ∧
      uw ≤ cw ∧ us ≤ csouth ∧ ce ≤ ue ∧ cn ≤ un :=
  ⟨by decide, by decide, by decide,
    c8_union_bounds_contains [sampleCellA] sampleCellA 5 (by decide) (by decide) (by decide)⟩

/-- C7 witness: with a concrete search returning zero items, the pipeline
returns the empty table with the declared schema. -/
theorem c7_witness :
    Nasadem.summarize_elevation (fun _ => ([] : List Unit))
      (fun _ _ => fun _ => none) [sampleCellA]
      = Except.ok { columns := Nasadem.OUTPUT_COLUMNS, rows := [] } :=
  (c7_empty_schema (fun _ => ([] : List Unit)) (fun _ _ => fun _ => none)
    (fun _ => ([] : List Unit)) (fun _ _ => fun _ => none) [sampleCellA]).2.1 rfl
